import Mathlib

/-!
Verification of the TrendForge core (src/App.py) against its natural-language
specification. The Python functions are embedded shallowly: prices are exact
rationals (the float pipeline's NaN is modelled by `Option.none`, and the
`x / 0 = +inf ⇒ RSI = 100` float behaviour is the explicit saturation branch
of `rsiAt`); external collaborators (feedparser, the sentiment model, the
CoinGecko catalog) are supplied as data or oracle functions.
-/

set_option maxHeartbeats 1000000

namespace TrendForge

/-! ## Python string primitives -/

/-- Python `str.lower()` on the characters of a string. -/
def lowerChars (s : List Char) : List Char := s.map Char.toLower

/-- Python `str.lower()`. -/
def lowerStr (s : String) : String := String.mk (lowerChars s.toList)

/-- Python `str.strip()`: drop whitespace from both ends. -/
def pyStrip (s : List Char) : List Char :=
  ((s.dropWhile Char.isWhitespace).reverse.dropWhile Char.isWhitespace).reverse

/-- One step of Python `str.split()` (no separator argument): `acc` holds the
current word reversed; words are maximal runs of non-whitespace, empty words
never appear. -/
def splitWsAcc : List Char → List Char → List (List Char)
  | [], acc => if acc = [] then [] else [acc.reverse]
  | c :: cs, acc =>
    if c.isWhitespace then
      if acc = [] then splitWsAcc cs [] else acc.reverse :: splitWsAcc cs []
    else splitWsAcc cs (c :: acc)

/-- Python `str.split()` with no arguments. -/
def pySplit (s : List Char) : List (List Char) := splitWsAcc s []

/-- Boolean prefix test used by the substring scan. -/
def isPre : List Char → List Char → Bool
  | [], _ => true
  | _ :: _, [] => false
  | a :: as, b :: bs => a == b && isPre as bs

/-- Python's `needle in haystack` on strings: substring containment. -/
def hasSub (needle : List Char) : List Char → Bool
  | [] => needle.isEmpty
  | c :: cs => isPre needle (c :: cs) || hasSub needle cs

/-! ## Headline matcher (`fetch_rss_news`, src/App.py 120-130) -/

/-- The relevance test of `fetch_rss_news` (src/App.py line 128):
`any(term in title_lower.split()[:6] for term in query_terms) or
any(f" {term} " in f" {title_lower} " for term in query_terms)` with
`query_terms = [coin_name.lower(), ticker.lower()]`. -/
def relevantB (coin_name ticker title : String) : Bool :=
  let query_terms : List (List Char) :=
    [lowerChars coin_name.toList, lowerChars ticker.toList]
  let tl := lowerChars title.toList
  query_terms.any (fun term => ((pySplit tl).take 6).contains term) ||
    query_terms.any (fun term => hasSub (' ' :: term ++ [' ']) (' ' :: tl ++ [' ']))

/-- The specification's matching rule, in its own words (§4.4): relevant iff
the lowercased name or ticker equals one of the first 6 whitespace-separated
tokens of the lowercased title, or occurs in the title bounded by spaces after
padding the title with a leading and trailing space. -/
def SpecRelevant (coin_name ticker title : String) : Prop :=
  ∃ term ∈ [lowerChars coin_name.toList, lowerChars ticker.toList],
    term ∈ (pySplit (lowerChars title.toList)).take 6 ∨
      (' ' :: term ++ [' ']) <:+: (' ' :: lowerChars title.toList ++ [' '])

/-- `fetch_rss_news` (src/App.py 120-130) with the parsed feed's entries
(title, link) supplied as data: keep the relevant titles, stripped, tagged
with the source name, in discovery order. -/
def fetch_rss_news (entries : List (String × String)) (coin_name ticker source_name : String) :
    List (String × String × String) :=
  entries.foldl (fun headlines e =>
    if relevantB coin_name ticker e.1 then
      headlines ++ [(String.mk (pyStrip e.1.toList), e.2, source_name)]
    else headlines) []

/-! ## Matcher plus cap (`fetch_crypto_news`, src/App.py 132-142) -/

/-- The fixed source list of `fetch_crypto_news`, urls interpolated with the
lowercased coin name. -/
def sourcesOf (coin_name : String) : List (String × String) :=
  [("Cointelegraph", "https://cointelegraph.com/rss/tag/" ++ lowerStr coin_name),
   ("Bitcoin.com", "https://news.bitcoin.com/feed/?s=" ++ lowerStr coin_name),
   ("Coindesk", "https://www.coindesk.com/search?query=" ++ lowerStr coin_name)]

/-- The value of `headlines` after the source loop of `fetch_crypto_news`,
before the `[:5]` cap: per source, fetch only when the url contains "rss" or
"feed", concatenating in the fixed source order. `feeds` maps a feed url to
its parsed entries. -/
def matchedPool (feeds : String → List (String × String)) (coin_name ticker : String) :
    List (String × String × String) :=
  (sourcesOf coin_name).foldl (fun headlines su =>
    if hasSub "rss".toList su.2.toList || hasSub "feed".toList su.2.toList then
      headlines ++ fetch_rss_news (feeds su.2) coin_name ticker su.1
    else headlines) []

/-- `fetch_crypto_news` (src/App.py 132-142): the matched pool capped at 5. -/
def fetch_crypto_news (feeds : String → List (String × String)) (coin_name ticker : String) :
    List (String × String × String) :=
  (matchedPool feeds coin_name ticker).take 5

/-! ## Sentiment scorer (`analyze_sentiment`, src/App.py 145-153) -/

/-- One iteration of the loop in `analyze_sentiment`: the model is an oracle
from a title to an optional (label, score); `none` stands for any exception
of the classification call, answered by the `except` branch with
("UNKNOWN", 0.0). -/
def scoreOne (model : String → Option (String × ℚ)) (h : String × String × String) :
    String × String × ℚ × String × String :=
  match model h.1 with
  | some r => (h.1, r.1, r.2, h.2.1, h.2.2)
  | none => (h.1, "UNKNOWN", 0, h.2.1, h.2.2)

/-- `analyze_sentiment` (src/App.py 145-153). -/
def analyze_sentiment (model : String → Option (String × ℚ))
    (headlines : List (String × String × String)) :
    List (String × String × ℚ × String × String) :=
  headlines.map (scoreOne model)

/-! ## Asset resolution and the unresolved-ticker fallback (src/App.py 16-34, 161-169) -/

/-- The `PRIORITY_IDS` dict (src/App.py 16-20). -/
def PRIORITY_IDS : List (String × String) :=
  [("btc", "bitcoin"), ("eth", "ethereum"), ("xrp", "ripple"), ("ada", "cardano"),
   ("sol", "solana"), ("bnb", "binancecoin"), ("doge", "dogecoin"), ("ltc", "litecoin"),
   ("dot", "polkadot"), ("pol", "polygon"), ("dash", "dash"), ("etc", "ethereum_classic")]

/-- One entry of the CoinGecko `/coins/list` payload. -/
structure Coin where
  id : String
  symbol : String
  name : String

/-- `resolve_crypto_id` (src/App.py 23-34), the remote catalog supplied as
data: priority map first, then first coin whose symbol matches, then first
coin whose id or name matches, else `none`. -/
def resolve_crypto_id (coins : List Coin) (user_input : String) : Option String :=
  let q := String.mk (lowerChars (pyStrip user_input.toList))
  match PRIORITY_IDS.lookup q with
  | some cid => some cid
  | none =>
    match coins.find? (fun coin => lowerStr coin.symbol == q) with
    | some coin => some coin.id
    | none =>
      match coins.find? (fun coin => lowerStr coin.id == q || lowerStr coin.name == q) with
      | some coin => some coin.id
      | none => none

/-- The news selection of the UI handler (src/App.py 161-169, 188-190): an
unresolved ticker is answered with `fetch_crypto_news("crypto", "crypto")`
(not an error); a resolved one with the coin's metadata name and the raw
ticker input. -/
def news_for_input (coins : List Coin) (feeds : String → List (String × String))
    (metaName : String → String) (ticker_input : String) :
    List (String × String × String) :=
  match resolve_crypto_id coins ticker_input with
  | none => fetch_crypto_news feeds "crypto" "crypto"
  | some sid => fetch_crypto_news feeds (metaName sid) ticker_input

/-- Modelled from the spec: the claim's "unfiltered generic news view" —
every entry of every configured source, with no relevance filtering. Stated
only to compare the code's fallback against it. -/
def unfilteredView (feeds : String → List (String × String)) : List (String × String) :=
  (sourcesOf "crypto").foldl (fun acc su => acc ++ feeds su.2) []

/-! ## Time-series construction (`calculate_indicators`, src/App.py 58-61)

`pd.DataFrame(prices, columns=["timestamp", "price"])`, the millisecond
timestamps converted to a datetime index by `pd.to_datetime` + `set_index`:
none of these operations sorts rows or drops duplicate timestamps, so the
series keeps the raw (timestamp, price) pairs exactly as given. -/

/-- The DataFrame rows of src/App.py 59-61: the input pairs, in input order,
duplicates retained. -/
def buildSeries (prices : List (ℤ × ℚ)) : List (ℤ × ℚ) := prices

/-- Strictly-ascending test on a timestamp column (the spec's sortedness
invariant). -/
def strictSortedB : List ℤ → Bool
  | [] => true
  | [_] => true
  | a :: b :: rest => decide (a < b) && strictSortedB (b :: rest)

/-! ## Indicator engine (`calculate_indicators`, src/App.py 63-74)

Floats are embedded as exact rationals; a NaN cell is `Option.none`. The two
places the float pipeline leaves ℚ are made explicit: `delta.diff()` has NaN
at index 0 (here `none`, turned into 0 by the `where(…, 0)` fill, whose
condition is false on NaN), and `rs = gain/loss` at mean loss 0 is +inf for
positive mean gain (so `100 - 100/(1+rs)` is exactly 100) and NaN for mean
gain 0 (so the RSI cell is absent). -/

/-- `df["price"].diff()`: `none` at index 0, else the difference with the
previous price. -/
def diffCol (xs : List ℚ) : List (Option ℚ) :=
  (List.range xs.length).map (fun i =>
    if i = 0 then none else some (xs.getD i 0 - xs.getD (i - 1) 0))

/-- `delta.where(delta > 0, 0)`: keep a positive delta, else 0 (a NaN delta
fails the comparison and is also replaced by 0). -/
def gainVal : Option ℚ → ℚ
  | some d => if 0 < d then d else 0
  | none => 0

/-- `-delta.where(delta < 0, 0)`: the negated negative delta, else 0. -/
def lossVal : Option ℚ → ℚ
  | some d => if d < 0 then -d else 0
  | none => 0

/-- The gain series of src/App.py line 64 (before the rolling mean). -/
def gains (xs : List ℚ) : List ℚ := (diffCol xs).map gainVal

/-- The loss series of src/App.py line 65 (before the rolling mean). -/
def losses (xs : List ℚ) : List ℚ := (diffCol xs).map lossVal

/-- `rolling(window=w).mean()` with the default `min_periods = w`: absent
until a full window of `w` observations exists, then the plain mean of the
last `w` values. -/
def rollMean (w : ℕ) (xs : List ℚ) : List (Option ℚ) :=
  (List.range xs.length).map (fun i =>
    if i + 1 < w then none
    else some (((xs.take (i + 1)).drop (i + 1 - w)).sum / (w : ℚ)))

/-- One RSI cell from the two rolling means (src/App.py 66-67):
`rs = gain/loss; rsi = 100 - 100/(1+rs)` under float semantics — mean loss 0
with mean gain 0 is NaN/NaN (absent), mean loss 0 with mean gain nonzero is
+inf (RSI saturates to exactly 100), otherwise the exact formula. -/
def rsiAt (g l : Option ℚ) : Option ℚ :=
  match g, l with
  | some gv, some lv =>
    if lv = 0 then (if gv = 0 then none else some 100)
    else some (100 - 100 / (1 + gv / lv))
  | _, _ => none

/-- The tail of `ewm(adjust=False).mean()` after the seed: `a` is the
smoothing factor, `prev` the previous output. -/
def emaFrom (a : ℚ) (prev : ℚ) : List ℚ → List ℚ
  | [] => []
  | x :: xs =>
    let y := (1 - a) * prev + a * x
    y :: emaFrom a y xs

/-- `ewm(span=span, adjust=False).mean()`: seeded with the first value,
smoothing factor 2/(span+1). -/
def ema (span : ℕ) : List ℚ → List ℚ
  | [] => []
  | x :: xs => x :: emaFrom (2 / ((span : ℚ) + 1)) x xs

/-- The DataFrame `calculate_indicators` returns: the raw columns and the
derived rsi/macd/signal columns. The rsi column keeps float NaN cells as
`none`; macd and signal never hold NaN (the price column has none), so they
are plain rational columns. -/
structure IndicatorFrame where
  ts : List ℤ
  price : List ℚ
  rsi : List (Option ℚ)
  macd : List ℚ
  signal : List ℚ

/-- `calculate_indicators` (src/App.py 58-74). -/
def calculate_indicators (prices : List (ℤ × ℚ)) : IndicatorFrame :=
  let s := buildSeries prices
  let p := s.map Prod.snd
  let macdCol := List.zipWith (fun a b => a - b) (ema 12 p) (ema 26 p)
  { ts := s.map Prod.fst
    price := p
    rsi := List.zipWith rsiAt (rollMean 14 (gains p)) (rollMean 14 (losses p))
    macd := macdCol
    signal := ema 9 macdCol }

/-! ## Indicator interpreter (`interpret_indicators`, src/App.py 99-117) -/

/-- The qualitative RSI signal of src/App.py 105-110. -/
inductive RsiSig where
  | overbought
  | oversold
  | neutral
deriving DecidableEq

/-- The qualitative MACD signal of src/App.py 112-117. -/
inductive MacdSig where
  | bullish
  | bearish
  | sideways
deriving DecidableEq

/-- RSI reading: strict comparisons against 70 and 30 (boundaries neutral). -/
def rsiSigOf (r : ℚ) : RsiSig :=
  if 70 < r then .overbought else if r < 30 then .oversold else .neutral

/-- MACD reading: strict comparison of macd against signal. -/
def macdSigOf (m s : ℚ) : MacdSig :=
  if s < m then .bullish else if m < s then .bearish else .sideways

/-- `interpret_indicators` (src/App.py 99-117): the latest non-absent value
of each column via `dropna().iloc[-1]`. On a column with no non-absent value
`iloc[-1]` raises IndexError — the `Except.error` branch. -/
def interpret_indicators (df : IndicatorFrame) : Except String (RsiSig × MacdSig) :=
  match (df.rsi.filterMap id).getLast?, df.macd.getLast?, df.signal.getLast? with
  | some r, some m, some s => .ok (rsiSigOf r, macdSigOf m s)
  | _, _, _ => .error "IndexError"

/-! ## Correctness of the substring scan -/

theorem isPre_iff (n : List Char) : ∀ h : List Char, isPre n h = true ↔ n <+: h := by
  induction n with
  | nil => intro h; simp [isPre]
  | cons a as ih =>
    intro h
    cases h with
    | nil => simp [isPre]
    | cons b bs => simp [isPre, List.cons_prefix_cons, ih]

theorem hasSub_iff (n h : List Char) : hasSub n h = true ↔ n <:+: h := by
  induction h with
  | nil => simp [hasSub, List.infix_nil, List.isEmpty_iff]
  | cons c cs ih => simp [hasSub, List.infix_cons_iff, isPre_iff, ih]

/-- Every token `splitWsAcc` emits occurs bounded by spaces in the padded
input, provided every whitespace character of the input is a plain space
(`acc` holds the pending word reversed, as in `splitWsAcc`). -/
theorem splitWsAcc_infix :
    ∀ s acc : List Char, (∀ c ∈ s, c.isWhitespace = true → c = ' ') →
      ∀ t ∈ splitWsAcc s acc,
        (' ' :: (t ++ [' '])) <:+: (' ' :: (acc.reverse ++ s ++ [' '])) := by
  intro s
  induction s with
  | nil =>
    intro acc _ t ht
    by_cases hacc : acc = []
    · simp [splitWsAcc, hacc] at ht
    · simp [splitWsAcc, hacc] at ht
      subst ht
      simp
  | cons c cs ih =>
    intro acc hws t ht
    have hws' : ∀ x ∈ cs, x.isWhitespace = true → x = ' ' :=
      fun x hx => hws x (List.mem_cons_of_mem _ hx)
    by_cases hw : c.isWhitespace
    · have hc : c = ' ' := hws c (List.mem_cons_self c cs) hw
      subst hc
      rw [splitWsAcc, if_pos hw] at ht
      by_cases hacc : acc = []
      · rw [if_pos hacc] at ht
        subst hacc
        have h1 := ih [] hws' t ht
        simp only [List.reverse_nil, List.nil_append] at h1
        refine h1.trans ?_
        exact ⟨[' '], [], by simp⟩
      · rw [if_neg hacc] at ht
        rcases List.mem_cons.mp ht with h1 | h2
        · subst h1
          refine List.IsPrefix.isInfix ?_
          refine ⟨cs ++ [' '], ?_⟩
          simp
        · have h3 := ih [] hws' t h2
          simp only [List.reverse_nil, List.nil_append] at h3
          refine h3.trans ?_
          exact ⟨' ' :: acc.reverse, [], by simp⟩
    · rw [splitWsAcc, if_neg hw] at ht
      have h4 := ih (c :: acc) hws' t ht
      simpa [List.append_assoc] using h4

/-! ## Claim theorems: headline matcher -/

/-- C5: a headline is kept by the matcher if and only if, after lowercasing,
the asset name or ticker equals one of the first 6 whitespace-separated
tokens of the title, or occurs bounded by spaces in the title padded with a
leading and trailing space — the code's boolean test coincides with the
specification's matching rule. -/
theorem relevantB_iff_spec (coin_name ticker title : String) :
    relevantB coin_name ticker title = true ↔ SpecRelevant coin_name ticker title := by
  simp only [relevantB, SpecRelevant, Bool.or_eq_true, List.any_eq_true, hasSub_iff]
  constructor
  · rintro (⟨t, htQ, hA⟩ | ⟨t, htQ, hB⟩)
    · exact ⟨t, htQ, Or.inl (by simpa using hA)⟩
    · exact ⟨t, htQ, Or.inr hB⟩
  · rintro ⟨t, htQ, hA | hB⟩
    · exact Or.inl ⟨t, htQ, by simpa using hA⟩
    · exact Or.inr ⟨t, htQ, hB⟩

/-- C6 counterexample: the title "Canada eyes new ADA regulation" with ticker
"ada" IS matched by the code (the claim asserts it is not): "ADA" itself is a
standalone token of the title, both among the first 6 tokens and bounded by
spaces. -/
theorem canada_ada_title_is_matched :
    relevantB "cardano" "ada" "Canada eyes new ADA regulation" = true := by decide

/-- C6 amended: the word "Canada" alone does not make ticker "ada" match — a
title mentioning Canada but not the token ADA is rejected — while the
original title is matched only because "ADA" occurs as its own token. -/
theorem canada_word_boundary_exact :
    relevantB "cardano" "ada" "Canada eyes new regulation" = false ∧
    relevantB "cardano" "ada" "Canada eyes new ADA regulation" = true := by decide

/-- C7 counterexample: with a tab separating tokens, "btc" is among the first
6 whitespace-separated tokens of "btc\tup" yet the space-padded standalone
check fails (the padding check looks for a plain space on each side), so the
first-6-token check is not redundant. -/
theorem first6_not_subsumed_by_padded :
    ("btc".toList ∈ (pySplit (lowerChars "btc\tup".toList)).take 6) ∧
    hasSub (' ' :: "btc".toList ++ [' '])
      (' ' :: lowerChars "btc\tup".toList ++ [' ']) = false := by decide

/-- C7 amended: when every whitespace character of the lowercased title is a
plain space, any term equal to one of its first 6 tokens also passes the
space-padded standalone-word check; with other whitespace (tab, newline) as
separator the implication fails. -/
theorem first6_subsumed_when_spaces_only (title : String) (term : List Char)
    (hsp : ∀ c ∈ lowerChars title.toList, c.isWhitespace = true → c = ' ')
    (hmem : term ∈ (pySplit (lowerChars title.toList)).take 6) :
    hasSub (' ' :: term ++ [' ']) (' ' :: lowerChars title.toList ++ [' ']) = true := by
  have h1 : term ∈ pySplit (lowerChars title.toList) := List.mem_of_mem_take hmem
  have h2 := splitWsAcc_infix (lowerChars title.toList) [] hsp term h1
  rw [hasSub_iff]
  simpa using h2

/-- C7 amended, witness: the term "btc" is the third token of
"alpha beta btc up" (all separators plain spaces) and the padded standalone
check indeed accepts it. -/
theorem first6_subsumed_when_spaces_only_witness :
    hasSub (' ' :: "btc".toList ++ [' '])
      (' ' :: lowerChars "alpha beta btc up".toList ++ [' ']) = true :=
  first6_subsumed_when_spaces_only "alpha beta btc up" "btc".toList
    (by decide) (by decide)

/-! ## Claim theorems: time-series construction, interpreter, scorer, cap, fallback -/

/-- C4 counterexample: the construction step does not sort and does not
de-duplicate — unsorted input comes out unsorted, and two points with the
same timestamp are both kept. -/
theorem buildSeries_unsorted_counterexample :
    strictSortedB ((buildSeries [((2 : ℤ), (1 : ℚ)), ((1 : ℤ), (2 : ℚ))]).map Prod.fst) = false ∧
    (buildSeries [((1 : ℤ), (1 : ℚ)), ((1 : ℤ), (2 : ℚ))]).map Prod.fst = [1, 1] := by decide

/-- C4 amended: the construction step returns the raw (timestamp, price)
pairs exactly as given — input order preserved, duplicates retained; an empty
input yields an empty series (not an error), and input that is already
strictly sorted by timestamp stays strictly sorted. -/
theorem buildSeries_preserves_input (prices : List (ℤ × ℚ)) :
    buildSeries prices = prices ∧
    buildSeries ([] : List (ℤ × ℚ)) = [] ∧
    (strictSortedB (prices.map Prod.fst) = true →
      strictSortedB ((buildSeries prices).map Prod.fst) = true) :=
  ⟨rfl, rfl, fun h => h⟩

/-- C2: on a frame with no non-absent RSI value — here a one-point series and
the empty series — `interpret_indicators` does not report a "no data" signal:
`df["rsi"].dropna().iloc[-1]` raises IndexError (the error branch of the
embedding), contradicting the specified behaviour. -/
theorem interpret_raises_without_rsi :
    interpret_indicators (calculate_indicators [((0 : ℤ), (1 : ℚ))]) = Except.error "IndexError" ∧
    interpret_indicators (calculate_indicators ([] : List (ℤ × ℚ))) = Except.error "IndexError" :=
  ⟨rfl, rfl⟩

/-- C8: the sentiment scorer returns one result per input headline, in input
order, each result a function of its own headline alone; a classification
failure on a headline yields ("UNKNOWN", 0.0) for that headline and cannot
drop, misorder or alter any other result. -/
theorem analyze_sentiment_pointwise (model : String → Option (String × ℚ))
    (headlines : List (String × String × String)) :
    (analyze_sentiment model headlines).length = headlines.length ∧
    (∀ i : ℕ, (analyze_sentiment model headlines)[i]? = (headlines[i]?).map (scoreOne model)) ∧
    (∀ t u s : String, model t = none → scoreOne model (t, u, s) = (t, "UNKNOWN", 0, u, s)) ∧
    (∀ (t u s lb : String) (sc : ℚ), model t = some (lb, sc) →
      scoreOne model (t, u, s) = (t, lb, sc, u, s)) := by
  refine ⟨by simp [analyze_sentiment], fun i => by simp [analyze_sentiment], ?_, ?_⟩
  · intro t u s hfail
    simp [scoreOne, hfail]
  · intro t u s lb sc hok
    simp [scoreOne, hok]

/-- C9: `fetch_crypto_news` returns at most 5 headlines, always a prefix of
the matched pool taken in the fixed source order (and discovery order within
a source), and exactly 5 whenever at least 5 candidates match. -/
theorem fetch_crypto_news_capped (feeds : String → List (String × String))
    (coin_name ticker : String) :
    (fetch_crypto_news feeds coin_name ticker).length ≤ 5 ∧
    fetch_crypto_news feeds coin_name ticker <+: matchedPool feeds coin_name ticker ∧
    (5 ≤ (matchedPool feeds coin_name ticker).length →
      (fetch_crypto_news feeds coin_name ticker).length = 5) := by
  refine ⟨?_, List.take_prefix _ _, ?_⟩
  · simp only [fetch_crypto_news, List.length_take]
    omega
  · intro h
    simp only [fetch_crypto_news, List.length_take]
    omega

/-- A feed oracle with ten identical relevant entries per url, for the capped
pool demonstration. -/
def feeds10 : String → List (String × String) := fun _ => List.replicate 10 ("btc up", "x")

/-- Pool-cap demonstration on concrete data (spec §8): with 10 relevant
headlines per fetched source the matcher-plus-cap returns exactly 5. -/
theorem fetch_crypto_news_cap_demo :
    (fetch_crypto_news feeds10 "bitcoin" "btc").length = 5 ∧
    10 ≤ (matchedPool feeds10 "bitcoin" "btc").length := by decide

/-- The empty remote catalog. -/
def coins0 : List Coin := []

/-- A feed oracle holding one headline that does not contain the word
"crypto". -/
def feeds1 : String → List (String × String) := fun _ => [("Bitcoin surges past 70k", "x")]

/-- C10 counterexample: with an unresolvable ticker the code's fallback view
is empty although the sources hold a headline — the fallback still filters by
the generic query word "crypto", so it is not an unfiltered view of the
pool. -/
theorem fallback_view_still_filters :
    news_for_input coins0 feeds1 id "zzz" = [] ∧ unfilteredView feeds1 ≠ [] := by decide

/-- C10 amended: an input the resolver cannot map to an asset id is not a
fatal error — the caller falls back to the generic news pipeline invoked with
the fixed query "crypto"/"crypto" (whose headlines are therefore filtered by
the word "crypto", not by any asset-specific term). -/
theorem unresolved_ticker_generic_fallback (coins : List Coin)
    (feeds : String → List (String × String)) (metaName : String → String)
    (ticker_input : String) (h : resolve_crypto_id coins ticker_input = none) :
    news_for_input coins feeds metaName ticker_input =
      fetch_crypto_news feeds "crypto" "crypto" := by
  simp [news_for_input, h]

/-- C10 amended, witness: "zzz" resolves to nothing against the empty
catalog, and the fallback equation holds there. -/
theorem unresolved_ticker_generic_fallback_witness :
    resolve_crypto_id coins0 "zzz" = none ∧
    news_for_input coins0 feeds1 id "zzz" = fetch_crypto_news feeds1 "crypto" "crypto" :=
  ⟨by decide, unresolved_ticker_generic_fallback coins0 feeds1 id "zzz" (by decide)⟩

/-! ## Structure of the indicator columns -/

theorem emaFrom_length (a : ℚ) : ∀ (prev : ℚ) (xs : List ℚ), (emaFrom a prev xs).length = xs.length := by
  intro prev xs
  induction xs generalizing prev with
  | nil => rfl
  | cons x xs ih => simp [emaFrom, ih]

theorem ema_length (span : ℕ) (xs : List ℚ) : (ema span xs).length = xs.length := by
  cases xs <;> simp [ema, emaFrom_length]

theorem gains_length (xs : List ℚ) : (gains xs).length = xs.length := by
  simp [gains, diffCol]

theorem losses_length (xs : List ℚ) : (losses xs).length = xs.length := by
  simp [losses, diffCol]

theorem rollMean_length (w : ℕ) (xs : List ℚ) : (rollMean w xs).length = xs.length := by
  simp [rollMean]

theorem rollMean_getElem (w : ℕ) (xs : List ℚ) (i : ℕ) (hi : i < xs.length) :
    (rollMean w xs)[i]? =
      some (if i + 1 < w then none
        else some (((xs.take (i + 1)).drop (i + 1 - w)).sum / (w : ℚ))) := by
  rw [rollMean, List.getElem?_map, List.getElem?_range hi]
  rfl

theorem zipWith_getElem_some {α β γ : Type} (f : α → β → γ) {as : List α} {bs : List β}
    {i : ℕ} {a : α} {b : β} (ha : as[i]? = some a) (hb : bs[i]? = some b) :
    (List.zipWith f as bs)[i]? = some (f a b) := by
  simp [List.getElem?_zipWith, ha, hb]

theorem calc_rsi_zip (prices : List (ℤ × ℚ)) :
    (calculate_indicators prices).rsi =
      List.zipWith rsiAt (rollMean 14 (gains (prices.map Prod.snd)))
        (rollMean 14 (losses (prices.map Prod.snd))) := rfl

theorem calc_macd_length (prices : List (ℤ × ℚ)) :
    (calculate_indicators prices).macd.length = prices.length := by
  simp [calculate_indicators, buildSeries, List.length_zipWith, ema_length]

theorem calc_signal_length (prices : List (ℤ × ℚ)) :
    (calculate_indicators prices).signal.length = prices.length := by
  simp [calculate_indicators, buildSeries, List.length_zipWith, ema_length]

theorem calc_rsi_length (prices : List (ℤ × ℚ)) :
    (calculate_indicators prices).rsi.length = prices.length := by
  rw [calc_rsi_zip]
  simp [List.length_zipWith, rollMean_length, gains_length, losses_length]

/-- The RSI cell at a valid index, written out as `rsiAt` of the two rolling
windows. -/
theorem calc_rsi_getElem (prices : List (ℤ × ℚ)) (i : ℕ) (hi : i < prices.length) :
    (calculate_indicators prices).rsi[i]? =
      some (rsiAt
        (if i + 1 < 14 then none
          else some ((((gains (prices.map Prod.snd)).take (i + 1)).drop (i + 1 - 14)).sum / (14 : ℚ)))
        (if i + 1 < 14 then none
          else some ((((losses (prices.map Prod.snd)).take (i + 1)).drop (i + 1 - 14)).sum / (14 : ℚ)))) := by
  have hp : (prices.map Prod.snd).length = prices.length := List.length_map _ _
  have hg : i < (gains (prices.map Prod.snd)).length := by rw [gains_length, hp]; exact hi
  have hl : i < (losses (prices.map Prod.snd)).length := by rw [losses_length, hp]; exact hi
  rw [calc_rsi_zip]
  exact zipWith_getElem_some rsiAt (rollMean_getElem 14 _ i hg) (rollMean_getElem 14 _ i hl)

theorem gainVal_nonneg : ∀ d : Option ℚ, 0 ≤ gainVal d := by
  intro d
  cases d with
  | none => exact le_refl 0
  | some dv =>
    simp only [gainVal]
    split
    · linarith
    · exact le_refl 0

theorem lossVal_nonneg : ∀ d : Option ℚ, 0 ≤ lossVal d := by
  intro d
  cases d with
  | none => exact le_refl 0
  | some dv =>
    simp only [lossVal]
    split
    · linarith
    · exact le_refl 0

theorem gains_nonneg (xs : List ℚ) : ∀ v ∈ gains xs, 0 ≤ v := by
  intro v hv
  rcases List.mem_map.mp hv with ⟨d, _, rfl⟩
  exact gainVal_nonneg d

theorem losses_nonneg (xs : List ℚ) : ∀ v ∈ losses xs, 0 ≤ v := by
  intro v hv
  rcases List.mem_map.mp hv with ⟨d, _, rfl⟩
  exact lossVal_nonneg d

/-- A rolling-window mean of a nonnegative series is nonnegative. -/
theorem window_mean_nonneg (w : ℕ) (xs : List ℚ) (hxs : ∀ v ∈ xs, 0 ≤ v) (i : ℕ) :
    0 ≤ ((xs.take (i + 1)).drop (i + 1 - w)).sum / (w : ℚ) := by
  apply div_nonneg
  · apply List.sum_nonneg
    intro v hv
    exact hxs v (List.mem_of_mem_take (List.mem_of_mem_drop hv))
  · exact_mod_cast Nat.zero_le w

theorem rsiAt_eq_none_iff (gv lv : ℚ) :
    rsiAt (some gv) (some lv) = none ↔ gv = 0 ∧ lv = 0 := by
  simp only [rsiAt]
  by_cases hl : lv = 0
  · by_cases hg : gv = 0 <;> simp [hl, hg]
  · simp [hl]

/-! ## Claim theorems: indicator engine -/

/-- A 14-point constant price series: every delta is zero. -/
def pFlat : List (ℤ × ℚ) :=
  [(0, 5), (1, 5), (2, 5), (3, 5), (4, 5), (5, 5), (6, 5),
   (7, 5), (8, 5), (9, 5), (10, 5), (11, 5), (12, 5), (13, 5)]

/-- A 14-point strictly increasing price series: every delta is a gain. -/
def p14 : List (ℤ × ℚ) :=
  [(0, 0), (1, 1), (2, 2), (3, 3), (4, 4), (5, 5), (6, 6),
   (7, 7), (8, 8), (9, 9), (10, 10), (11, 11), (12, 12), (13, 13)]

/-- Index 13 is a valid index of the flat series. -/
theorem pFlat_len : 13 < pFlat.length := by norm_num [pFlat]

/-- On the flat series both window means at index 13 are 0: the RSI cell is
the NaN of `0/0`, hence absent. -/
theorem pFlat_rsi13 : (calculate_indicators pFlat).rsi[13]? = some none := by
  rw [calc_rsi_getElem pFlat 13 pFlat_len]
  norm_num [pFlat, gains, losses, diffCol, gainVal, lossVal, rsiAt, List.range_succ]

/-- Index 13 is a valid index of the increasing series. -/
theorem p14_len : 13 < p14.length := by norm_num [p14]

/-- On the increasing series the window mean loss at index 13 is 0 and the
mean gain is 13/14: RSI saturates to exactly 100. -/
theorem p14_rsi13 : (calculate_indicators p14).rsi[13]? = some (some 100) := by
  rw [calc_rsi_getElem p14 13 p14_len]
  norm_num [p14, gains, losses, diffCol, gainVal, lossVal, rsiAt, List.range_succ]

/-- C1 counterexample: on the 14-point constant series both rolling means at
index 13 are 0, so `rs = 0/0` is NaN and the RSI cell at index 13 is absent —
RSI is not absent *exactly* at indices 0 through 12 of a ≥14-point series. -/
theorem rsi_absent_at_13_counterexample :
    pFlat.length = 14 ∧ (calculate_indicators pFlat).rsi[13]? = some none :=
  ⟨rfl, pFlat_rsi13⟩

/-- C1 amended: MACD, Signal (and the RSI column as a column) have a cell at
every index of the series; the RSI cell is absent at every index below 13
(hence everywhere when the series has fewer than 14 points), and at an index
≥ 13 it is absent exactly when the rolling mean gain and the rolling mean
loss of its 14-point window are both zero. -/
theorem macd_total_rsi_warmup (prices : List (ℤ × ℚ)) :
    ((calculate_indicators prices).macd.length = prices.length ∧
      (calculate_indicators prices).signal.length = prices.length ∧
      (calculate_indicators prices).rsi.length = prices.length) ∧
    (∀ i : ℕ, i < prices.length → i < 13 →
      (calculate_indicators prices).rsi[i]? = some none) ∧
    (∀ i : ℕ, 13 ≤ i → i < prices.length →
      ((calculate_indicators prices).rsi[i]? = some none ↔
        (((gains (prices.map Prod.snd)).take (i + 1)).drop (i + 1 - 14)).sum / (14 : ℚ) = 0 ∧
        (((losses (prices.map Prod.snd)).take (i + 1)).drop (i + 1 - 14)).sum / (14 : ℚ) = 0)) := by
  refine ⟨⟨calc_macd_length _, calc_signal_length _, calc_rsi_length _⟩, ?_, ?_⟩
  · intro i hi h13
    rw [calc_rsi_getElem prices i hi]
    have hc : i + 1 < 14 := by omega
    rw [if_pos hc, if_pos hc]
    rfl
  · intro i h13 hi
    rw [calc_rsi_getElem prices i hi]
    have hc : ¬ i + 1 < 14 := by omega
    rw [if_neg hc, if_neg hc]
    simp [rsiAt_eq_none_iff]

/-- C3: every non-absent RSI value lies in [0, 100], and it equals 100 exactly
when the rolling mean loss of its window is 0 while the rolling mean gain is
positive — the division by a zero mean loss saturates to 100 instead of
failing or leaking a NaN. -/
theorem rsi_bounded_and_saturates (prices : List (ℤ × ℚ)) (i : ℕ) (x : ℚ)
    (hx : (calculate_indicators prices).rsi[i]? = some (some x)) :
    (0 ≤ x ∧ x ≤ 100) ∧
    (x = 100 ↔
      (((losses (prices.map Prod.snd)).take (i + 1)).drop (i + 1 - 14)).sum / (14 : ℚ) = 0 ∧
      0 < (((gains (prices.map Prod.snd)).take (i + 1)).drop (i + 1 - 14)).sum / (14 : ℚ)) := by
  have hi : i < prices.length := by
    by_contra hcon
    push_neg at hcon
    have hlen : (calculate_indicators prices).rsi.length ≤ i := by
      rw [calc_rsi_length]; exact hcon
    rw [List.getElem?_eq_none hlen] at hx
    exact Option.noConfusion hx
  rw [calc_rsi_getElem prices i hi] at hx
  by_cases hc : i + 1 < 14
  · rw [if_pos hc, if_pos hc] at hx
    simp [rsiAt] at hx
  · rw [if_neg hc, if_neg hc] at hx
    rw [Option.some_inj] at hx
    have hGnn : 0 ≤ (((gains (prices.map Prod.snd)).take (i + 1)).drop (i + 1 - 14)).sum / (14 : ℚ) :=
      window_mean_nonneg 14 _ (gains_nonneg _) i
    have hLnn : 0 ≤ (((losses (prices.map Prod.snd)).take (i + 1)).drop (i + 1 - 14)).sum / (14 : ℚ) :=
      window_mean_nonneg 14 _ (losses_nonneg _) i
    set G := (((gains (prices.map Prod.snd)).take (i + 1)).drop (i + 1 - 14)).sum / (14 : ℚ) with hGdef
    set L := (((losses (prices.map Prod.snd)).take (i + 1)).drop (i + 1 - 14)).sum / (14 : ℚ) with hLdef
    by_cases hL : L = 0
    · by_cases hG : G = 0
      · simp [rsiAt, hL, hG] at hx
      · simp [rsiAt, hL, hG] at hx
        subst hx
        refine ⟨⟨by norm_num, le_refl 100⟩, ?_⟩
        constructor
        · intro _
          exact ⟨hL, lt_of_le_of_ne hGnn (Ne.symm hG)⟩
        · intro _
          rfl
    · have hxval : 100 - 100 / (1 + G / L) = x := by
        simpa [rsiAt, hL] using hx
      have hLpos : 0 < L := lt_of_le_of_ne hLnn (Ne.symm hL)
      have hrs : 0 ≤ G / L := div_nonneg hGnn hLpos.le
      have h1 : (0 : ℚ) < 1 + G / L := by linarith
      have hqpos : 0 < 100 / (1 + G / L) := div_pos (by norm_num) h1
      have hqle : 100 / (1 + G / L) ≤ 100 := by
        rw [div_le_iff₀ h1]
        nlinarith
      refine ⟨⟨by linarith, by linarith⟩, ?_⟩
      constructor
      · intro hx100
        exfalso
        rw [hx100] at hxval
        linarith
      · rintro ⟨habs, -⟩
        exact absurd habs hL

/-- C3 witness: the strictly increasing 14-point series has mean loss 0 and
positive mean gain at index 13, and its RSI there is exactly the saturated
100, which the theorem bounds into [0, 100]. -/
theorem rsi_bounded_and_saturates_witness :
    (calculate_indicators p14).rsi[13]? = some (some 100) ∧
    (0 ≤ (100 : ℚ) ∧ (100 : ℚ) ≤ 100) :=
  ⟨p14_rsi13, (rsi_bounded_and_saturates p14 13 100 p14_rsi13).1⟩

end TrendForge
